import Mathlib

/-!
Verification of the collage layout solver of signature-photo-alchemy.

The grid solver lives in `src/components/collage/layout/calculateGridLayout.ts`,
which contains two variants of `calculateGridLayout` (the "frame" variant,
called V1 below, and the search variant, called V2 below).  The side photo
distribution policy appears as `calculateSidePhotoDistribution` in
`src/components/collage/render/drawImagesToCanvas.ts` and as
`tryDistributeSidePhotos` in a sibling variant file.  The ring layout helpers
`calculateHexagonRings` and `generateRingPositions` come from the hexagon
layout module.

All JavaScript arithmetic in these functions stays on integers and exact
half-integers, so it is embedded exactly over `Int`:
`Math.floor(a / b)` for a positive integer `b` is `Int.fdiv`, and
`Math.round(z / 2)` for an integer `z` (the only rounding that occurs:
JavaScript rounds halves toward positive infinity) is `roundHalf` below.
-/

/-- Axis-aligned rectangle `{x, y, w, h}` in page pixel units. -/
structure Rect where
  x : Int
  y : Int
  w : Int
  h : Int
deriving Repr, DecidableEq

/-- Result shape of `calculateGridLayout`: the main rectangle plus the ordered
list of side rectangles (top row, bottom row, left column, right column). -/
structure GridLayoutResult where
  main : Rect
  side : List Rect
deriving Repr, DecidableEq

/-- Models JavaScript `Math.round(z / 2)` for an integer `z`: floor of
`z / 2 + 1 / 2`, i.e. rounding halves toward positive infinity. -/
def roundHalf (z : Int) : Int := (z + 1).fdiv 2

/-- Two rectangles overlap when their axis-aligned intersection has positive
area in both directions. -/
def overlaps (A B : Rect) : Prop :=
  max A.x B.x < min (A.x + A.w) (B.x + B.w) ∧
  max A.y B.y < min (A.y + A.h) (B.y + B.h)

instance (A B : Rect) : Decidable (overlaps A B) := by
  unfold overlaps; exact inferInstance

/-- Increment the edge-count component addressed by `k` in the
`[top, bottom, left, right]` quadruple (models `nBySide[k]++`). -/
def bumpAt (k : Nat) (t : Int × Int × Int × Int) : Int × Int × Int × Int :=
  match k, t with
  | 0, (a, b, c, d) => (a + 1, b, c, d)
  | 1, (a, b, c, d) => (a, b + 1, c, d)
  | 2, (a, b, c, d) => (a, b, c + 1, d)
  | 3, (a, b, c, d) => (a, b, c, d + 1)
  | _, t => t

/-- V1 side distribution: `floor(numSide / 4)` to each edge, then the extras
loop `for (i = 0; i < extras; i++) if (i < 2) nBySide[i % 2]++ else
nBySide[2 + i % 2]++`. -/
def v1Distribute (numSide : Int) : Int × Int × Int × Int :=
  let base := numSide.fdiv 4
  let totalSlots := base * 4
  let extras := numSide - totalSlots
  (List.range extras.toNat).foldl
    (fun t i => bumpAt (if i < 2 then i % 2 else 2 + i % 2) t)
    (base, base, base, base)

/-- Shared shape of the per-edge size computations of V1:
`n > 0 ? Math.floor((space - (n - 1) * padding) / n) : 0`. -/
def v1SizeFor (space n padding : Int) : Int :=
  if 0 < n then (space - (n - 1) * padding).fdiv n else 0

/-- Models `sizes.length ? Math.min(...sizes) : 0`. -/
def jsMinList : List Int → Int
  | [] => 0
  | x :: xs => xs.foldl min x

/-- Top row placement of V1: `x = Math.round(mainX + (mainW - totalW) / 2 +
i * (sideSize + padding))`, `y = mainY - sideSize - padding`. -/
def v1TopRow (mainX mainY mainW padding sideSize nTop : Int) : List Rect :=
  let totalW := sideSize * nTop + padding * (nTop - 1)
  (List.range nTop.toNat).map fun (i : Nat) =>
    { x := roundHalf (2 * mainX + (mainW - totalW) + 2 * ((i : Int) * (sideSize + padding)))
      y := mainY - sideSize - padding
      w := sideSize, h := sideSize }

/-- Bottom row placement of V1: same x pattern, `y = mainY + mainH + padding`. -/
def v1BottomRow (mainX mainY mainW mainH padding sideSize nBtm : Int) : List Rect :=
  let totalW := sideSize * nBtm + padding * (nBtm - 1)
  (List.range nBtm.toNat).map fun (i : Nat) =>
    { x := roundHalf (2 * mainX + (mainW - totalW) + 2 * ((i : Int) * (sideSize + padding)))
      y := mainY + mainH + padding
      w := sideSize, h := sideSize }

/-- Left column placement of V1: `x = mainX - sideSize - padding`,
`y = Math.round(mainY + (mainH - totalH) / 2 + i * (sideSize + padding))`. -/
def v1LeftCol (mainX mainY mainH padding sideSize nL : Int) : List Rect :=
  let totalH := sideSize * nL + padding * (nL - 1)
  (List.range nL.toNat).map fun (i : Nat) =>
    { x := mainX - sideSize - padding
      y := roundHalf (2 * mainY + (mainH - totalH) + 2 * ((i : Int) * (sideSize + padding)))
      w := sideSize, h := sideSize }

/-- Right column placement of V1: `x = mainX + mainW + padding`, same y. -/
def v1RightCol (mainX mainY mainW mainH padding sideSize nR : Int) : List Rect :=
  let totalH := sideSize * nR + padding * (nR - 1)
  (List.range nR.toNat).map fun (i : Nat) =>
    { x := mainX + mainW + padding
      y := roundHalf (2 * mainY + (mainH - totalH) + 2 * ((i : Int) * (sideSize + padding)))
      w := sideSize, h := sideSize }

/-- First `calculateGridLayout` variant of
`src/components/collage/layout/calculateGridLayout.ts` ("tight border grid"):
main photo at 50% canvas width centered, side photos sized to the smallest
positive per-edge fit, clamped to at least 1px, placed as a frame. -/
def calculateGridLayoutV1 (canvasWidth canvasHeight padding imagesCount _mainPhotoIndex : Int) :
    GridLayoutResult :=
  if imagesCount < 1 then { main := ⟨0, 0, 0, 0⟩, side := [] }
  else
    let mainW := roundHalf canvasWidth
    let maxMainH := canvasHeight - 4 * padding
    let mainH := min mainW maxMainH
    let mainX := roundHalf (canvasWidth - mainW)
    let mainY := roundHalf (canvasHeight - mainH)
    let numSide := imagesCount - 1
    if numSide < 1 then { main := ⟨mainX, mainY, mainW, mainH⟩, side := [] }
    else
      let counts := v1Distribute numSide
      let nTop := counts.1
      let nBtm := counts.2.1
      let nL := counts.2.2.1
      let nR := counts.2.2.2
      let sTop := v1SizeFor mainW nTop padding
      let sBtm := v1SizeFor mainW nBtm padding
      let sL := v1SizeFor mainH nL padding
      let sR := v1SizeFor mainH nR padding
      let sizes := [sTop, sBtm, sL, sR].filter (fun v => 0 < v)
      let sideSize := max 1 (jsMinList sizes)
      { main := ⟨mainX, mainY, mainW, mainH⟩
        side :=
          v1TopRow mainX mainY mainW padding sideSize nTop
            ++ v1BottomRow mainX mainY mainW mainH padding sideSize nBtm
            ++ v1LeftCol mainX mainY mainH padding sideSize nL
            ++ v1RightCol mainX mainY mainW mainH padding sideSize nR }

/-- V2 side distribution: `for (i = 0; i < numSide; ++i) nBySide[i % 4]++`. -/
def roundRobin4 (n : Nat) : Int × Int × Int × Int :=
  (List.range n).foldl (fun t i => bumpAt (i % 4) t) (0, 0, 0, 0)

/-- Placement step of the V2 search for a candidate side size `s` and main
size `m`: centers the grid bounding box and emits main plus the four bands. -/
def v2Place (W H padding nTop nBtm nLft nRgt s m : Int) : GridLayoutResult :=
  let gridW := nLft * s + m + nRgt * s + (nLft + nRgt + 2) * padding
  let gridH := nTop * s + m + nBtm * s + (nTop + nBtm + 2) * padding
  let startX := roundHalf (W - gridW)
  let startY := roundHalf (H - gridH)
  let mainX := startX + nLft * s + (nLft + 1) * padding
  let mainY := startY + nTop * s + (nTop + 1) * padding
  let top := (List.range nTop.toNat).map fun (i : Nat) =>
    { x := roundHalf (2 * (startX + nLft * s + (nLft + 1) * padding + (i : Int) * (s + padding))
              - ((nTop * (s + padding) - padding) - m))
      y := startY + padding, w := s, h := s : Rect }
  let btm := (List.range nBtm.toNat).map fun (i : Nat) =>
    { x := roundHalf (2 * (startX + nLft * s + (nLft + 1) * padding + (i : Int) * (s + padding))
              - ((nBtm * (s + padding) - padding) - m))
      y := startY + nTop * s + m + (nTop + nBtm + 1) * padding, w := s, h := s : Rect }
  let lft := (List.range nLft.toNat).map fun (i : Nat) =>
    { x := startX + padding
      y := roundHalf (2 * (startY + nTop * s + (nTop + 1) * padding + (i : Int) * (s + padding))
              - ((nLft * (s + padding) - padding) - m))
      w := s, h := s : Rect }
  let rgt := (List.range nRgt.toNat).map fun (i : Nat) =>
    { x := startX + nLft * s + m + (nLft + 1 + 1) * padding
      y := roundHalf (2 * (startY + nTop * s + (nTop + 1) * padding + (i : Int) * (s + padding))
              - ((nRgt * (s + padding) - padding) - m))
      w := s, h := s : Rect }
  { main := ⟨mainX, mainY, m, m⟩, side := top ++ btm ++ lft ++ rgt }

/-- Search loop of V2: `for (s = maxSideSize; s >= 1; --s)` carrying
`(bestLayout, maxMainArea)`; skips candidates with `m < minMain`, records a
candidate when `m * m > maxMainArea`, and breaks once `maxMainArea > 0`. -/
def v2Search (W H padding nTop nBtm nLft nRgt minMain : Int) :
    Nat → GridLayoutResult × Int → GridLayoutResult × Int
  | 0, st => st
  | s + 1, st =>
    let sI : Int := (s : Int) + 1
    let mW := W - (nLft + nRgt) * sI - (nLft + nRgt + 2) * padding
    let mH := H - (nTop + nBtm) * sI - (nTop + nBtm + 2) * padding
    let m := min mW mH
    if m < minMain ∧ 0 < nLft + nRgt + nTop + nBtm then
      v2Search W H padding nTop nBtm nLft nRgt minMain s st
    else
      let st' := if st.2 < m * m then (v2Place W H padding nTop nBtm nLft nRgt sI m, m * m) else st
      if 0 < st'.2 then st' else v2Search W H padding nTop nBtm nLft nRgt minMain s st'

/-- Second `calculateGridLayout` variant of
`src/components/collage/layout/calculateGridLayout.ts` (search variant):
special-cases one image as the largest centered square with margin `padding`,
otherwise distributes side photos round-robin and searches side sizes from the
largest feasible value downward. -/
def calculateGridLayoutV2 (canvasWidth canvasHeight padding imagesCount _mainPhotoIndex : Int) :
    GridLayoutResult :=
  if imagesCount < 1 then { main := ⟨0, 0, 0, 0⟩, side := [] }
  else if imagesCount = 1 then
    let w := canvasWidth - 2 * padding
    let h := canvasHeight - 2 * padding
    let size := min w h
    { main := ⟨roundHalf (canvasWidth - size), roundHalf (canvasHeight - size), size, size⟩
      side := [] }
  else
    let numSide := imagesCount - 1
    let counts := roundRobin4 numSide.toNat
    let nTop := counts.1
    let nBtm := counts.2.1
    let nLft := counts.2.2.1
    let nRgt := counts.2.2.2
    let minMain := min (canvasWidth.fdiv 2) (canvasHeight.fdiv 2)
    let maxSideSizeW :=
      (canvasWidth - 2 * padding).fdiv (if nLft + nRgt = 0 then 1 else nLft + nRgt + 1)
    let maxSideSizeH :=
      (canvasHeight - 2 * padding).fdiv (if nTop + nBtm = 0 then 1 else nTop + nBtm + 1)
    let maxSideSize := max 1 (min (min maxSideSizeW maxSideSizeH) 300)
    (v2Search canvasWidth canvasHeight padding nTop nBtm nLft nRgt minMain
      maxSideSize.toNat ({ main := ⟨0, 0, 0, 0⟩, side := [] }, 0)).1

/-- Per-edge counts `{top, bottom, left, right}` returned by the
side-distribution policy. -/
structure EdgeCounts where
  top : Nat
  bottom : Nat
  left : Nat
  right : Nat
deriving Repr, DecidableEq

/-- The side distribution policy of
`src/components/collage/render/drawImagesToCanvas.ts`:
`base = floor(n / 4)`, `remainder = n % 4`, extras in order top, bottom,
left, right. -/
def calculateSidePhotoDistribution (totalSidePhotos : Nat) : EdgeCounts :=
  let base := totalSidePhotos / 4
  let remainder := totalSidePhotos % 4
  { top := base + (if 0 < remainder then 1 else 0)
    bottom := base + (if 1 < remainder then 1 else 0)
    left := base + (if 2 < remainder then 1 else 0)
    right := base + (if 3 < remainder then 1 else 0) }

/-- One pass of the `while (remain > 0)` body of `tryDistributeSidePhotos`:
four sequential `if (remain > 0) { edge++; remain--; }` statements.
State is `(remain, top, btm, l, r)`. -/
def distBody (st : Nat × Nat × Nat × Nat × Nat) : Nat × Nat × Nat × Nat × Nat :=
  let top := if 0 < st.1 then st.2.1 + 1 else st.2.1
  let r1 := if 0 < st.1 then st.1 - 1 else st.1
  let btm := if 0 < r1 then st.2.2.1 + 1 else st.2.2.1
  let r2 := if 0 < r1 then r1 - 1 else r1
  let l := if 0 < r2 then st.2.2.2.1 + 1 else st.2.2.2.1
  let r3 := if 0 < r2 then r2 - 1 else r2
  let r := if 0 < r3 then st.2.2.2.2 + 1 else st.2.2.2.2
  let r4 := if 0 < r3 then r3 - 1 else r3
  (r4, top, btm, l, r)

/-- The `while (remain > 0)` loop of `tryDistributeSidePhotos`. -/
def distWhile (st : Nat × Nat × Nat × Nat × Nat) : Nat × Nat × Nat × Nat :=
  if h : 0 < st.1 then distWhile (distBody st)
  else (st.2.1, st.2.2.1, st.2.2.2.1, st.2.2.2.2)
termination_by st.1
decreasing_by
  unfold distBody
  dsimp only
  split_ifs <;> omega

/-- The `tryDistributeSidePhotos` function of the variant grid module:
`base = floor(n / 4)` to every edge, then a while-loop handing one extra each
to top, bottom, left, right while any remain. -/
def tryDistributeSidePhotos (n : Nat) : Nat × Nat × Nat × Nat :=
  let base := n / 4
  let remain := n - (base + base + base + base)
  distWhile (remain, base, base, base, base)

/-- Ring count result of `calculateHexagonRings`. -/
structure HexRings where
  rings : Nat
  totalHexes : Nat
deriving Repr, DecidableEq

/-- The `calculateHexagonRings` function of the hexagon layout module. -/
def calculateHexagonRings (sideCount : Nat) : HexRings :=
  if sideCount ≤ 6 then ⟨1, 6⟩
  else if sideCount ≤ 18 then ⟨2, 18⟩
  else if sideCount ≤ 36 then ⟨3, 36⟩
  else ⟨4, 60⟩

/-- Axial hexagon coordinate. -/
structure HexCoord where
  q : Int
  r : Int
deriving Repr, DecidableEq

/-- Walks `steps` cells from `(q, r)` in direction `(dq, dr)`, recording each
visited cell (the inner `for (step = 0; step < ring; step++)` loop of
`generateRingPositions`); also returns the final cursor. -/
def ringSideSteps (dq dr : Int) (steps : Nat) (q r : Int) : List HexCoord × Int × Int :=
  match steps with
  | 0 => ([], q, r)
  | k + 1 =>
    let rest := ringSideSteps dq dr k (q + dq) (r + dr)
    (⟨q, r⟩ :: rest.1, rest.2)

/-- The `generateRingPositions` function of the hexagon layout module: ring 1
is a hard-coded list of six coordinates; larger rings start at `(ring, -ring)`
and walk `ring` steps along each of six direction vectors. -/
def generateRingPositions (ring : Nat) : List HexCoord :=
  if ring = 1 then
    [⟨1, -1⟩, ⟨0, -1⟩, ⟨-1, 0⟩, ⟨-1, 1⟩, ⟨0, 1⟩, ⟨1, 0⟩]
  else
    let dirs : List (Int × Int) := [(-1, 0), (-1, 1), (0, 1), (1, 0), (1, -1), (0, -1)]
    (dirs.foldl
      (fun (acc : List HexCoord × Int × Int) d =>
        let out := ringSideSteps d.1 d.2 ring acc.2.1 acc.2.2
        (acc.1 ++ out.1, out.2))
      ([], (ring : Int), -(ring : Int))).1

theorem roundHalf_spec (z : Int) : z ≤ 2 * roundHalf z ∧ 2 * roundHalf z ≤ z + 1 := by
  unfold roundHalf
  rw [Int.fdiv_eq_ediv _ (by norm_num : (0 : Int) ≤ 2)]
  omega

theorem roundHalf_add_two_mul (z k : Int) : roundHalf (z + 2 * k) = roundHalf z + k := by
  unfold roundHalf
  rw [Int.fdiv_eq_ediv _ (by norm_num : (0 : Int) ≤ 2),
    Int.fdiv_eq_ediv _ (by norm_num : (0 : Int) ≤ 2)]
  omega

theorem not_overlaps_of_x_le {A B : Rect} (h : A.x + A.w ≤ B.x ∨ B.x + B.w ≤ A.x) :
    ¬ overlaps A B := by
  rintro ⟨hx, -⟩
  rcases h with h | h <;> omega

theorem not_overlaps_of_y_le {A B : Rect} (h : A.y + A.h ≤ B.y ∨ B.y + B.h ≤ A.y) :
    ¬ overlaps A B := by
  rintro ⟨-, hy⟩
  rcases h with h | h <;> omega

theorem foldl_min_le_init (xs : List Int) (a : Int) : xs.foldl min a ≤ a := by
  induction xs generalizing a with
  | nil => exact le_refl a
  | cons x xs ih => exact le_trans (ih (min a x)) (min_le_left a x)

theorem foldl_min_le_mem (xs : List Int) (a y : Int) (hy : y ∈ xs) : xs.foldl min a ≤ y := by
  induction xs generalizing a with
  | nil => cases hy
  | cons x xs ih =>
    rcases List.mem_cons.1 hy with rfl | hy
    · exact le_trans (foldl_min_le_init xs (min a y)) (min_le_right a y)
    · exact ih (min a x) hy

theorem jsMinList_le {l : List Int} {y : Int} (hy : y ∈ l) : jsMinList l ≤ y := by
  cases l with
  | nil => cases hy
  | cons x xs =>
    rcases List.mem_cons.1 hy with rfl | hy
    · exact foldl_min_le_init xs y
    · exact foldl_min_le_mem xs x y hy

theorem v1SizeFor_mul_le {space n padding : Int} (hn : 0 < n) {s : Int}
    (hs : s ≤ v1SizeFor space n padding) : n * s + (n - 1) * padding ≤ space := by
  unfold v1SizeFor at hs
  rw [if_pos hn, Int.fdiv_eq_ediv _ (le_of_lt hn)] at hs
  have h2 := (Int.le_ediv_iff_mul_le hn).1 hs
  nlinarith [h2]

theorem calculateGridLayoutV1_spec (W H p c mpi : Int) (h1 : ¬ c < 1) (h2 : ¬ c - 1 < 1) :
    calculateGridLayoutV1 W H p c mpi =
      (let mainW := roundHalf W
      let mainH := min mainW (H - 4 * p)
      let mainX := roundHalf (W - mainW)
      let mainY := roundHalf (H - mainH)
      let counts := v1Distribute (c - 1)
      let sizes := [v1SizeFor mainW counts.1 p, v1SizeFor mainW counts.2.1 p,
          v1SizeFor mainH counts.2.2.1 p,
          v1SizeFor mainH counts.2.2.2 p].filter (fun v => 0 < v)
      let s := max 1 (jsMinList sizes)
      { main := ⟨mainX, mainY, mainW, mainH⟩
        side := v1TopRow mainX mainY mainW p s counts.1
          ++ v1BottomRow mainX mainY mainW mainH p s counts.2.1
          ++ v1LeftCol mainX mainY mainH p s counts.2.2.1
          ++ v1RightCol mainX mainY mainW mainH p s counts.2.2.2 }) := by
  simp only [calculateGridLayoutV1]
  rw [if_neg h1, if_neg h2]

theorem v1TopRow_mem {mainX mainY mainW padding sideSize nTop : Int} {r : Rect}
    (h : r ∈ v1TopRow mainX mainY mainW padding sideSize nTop) :
    r.y = mainY - sideSize - padding ∧ r.h = sideSize ∧ r.w = sideSize := by
  simp only [v1TopRow, List.mem_map, List.mem_range] at h
  obtain ⟨i, -, rfl⟩ := h
  exact ⟨rfl, rfl, rfl⟩

theorem v1BottomRow_mem {mainX mainY mainW mainH padding sideSize nBtm : Int} {r : Rect}
    (h : r ∈ v1BottomRow mainX mainY mainW mainH padding sideSize nBtm) :
    r.y = mainY + mainH + padding ∧ r.h = sideSize ∧ r.w = sideSize := by
  simp only [v1BottomRow, List.mem_map, List.mem_range] at h
  obtain ⟨i, -, rfl⟩ := h
  exact ⟨rfl, rfl, rfl⟩

theorem v1LeftCol_mem {mainX mainY mainH padding sideSize nL : Int} {r : Rect}
    (h : r ∈ v1LeftCol mainX mainY mainH padding sideSize nL) :
    r.x = mainX - sideSize - padding ∧ r.h = sideSize ∧ r.w = sideSize := by
  simp only [v1LeftCol, List.mem_map, List.mem_range] at h
  obtain ⟨i, -, rfl⟩ := h
  exact ⟨rfl, rfl, rfl⟩

theorem v1RightCol_mem {mainX mainY mainW mainH padding sideSize nR : Int} {r : Rect}
    (h : r ∈ v1RightCol mainX mainY mainW mainH padding sideSize nR) :
    r.x = mainX + mainW + padding ∧ r.h = sideSize ∧ r.w = sideSize := by
  simp only [v1RightCol, List.mem_map, List.mem_range] at h
  obtain ⟨i, -, rfl⟩ := h
  exact ⟨rfl, rfl, rfl⟩

theorem v1LeftCol_y_bounds {mainX mainY mainH padding sideSize nL : Int} {r : Rect}
    (hp : 0 ≤ padding) (hs : 0 ≤ sideSize)
    (hfit : 0 < nL → sideSize * nL + padding * (nL - 1) ≤ mainH)
    (h : r ∈ v1LeftCol mainX mainY mainH padding sideSize nL) :
    mainY ≤ r.y ∧ r.y + sideSize ≤ mainY + mainH := by
  unfold v1LeftCol at h
  rw [List.mem_map] at h
  obtain ⟨i, hi, rfl⟩ := h
  rw [List.mem_range] at hi
  have hnL : 0 < nL := by omega
  have hfit' := hfit hnL
  have hiI : (i : Int) ≤ nL - 1 := by omega
  have hiI0 : 0 ≤ (i : Int) := by positivity
  have key : roundHalf (2 * mainY + (mainH - (sideSize * nL + padding * (nL - 1))) +
      2 * ((i : Int) * (sideSize + padding))) =
      mainY + (i : Int) * (sideSize + padding) +
        roundHalf (mainH - (sideSize * nL + padding * (nL - 1))) := by
    rw [show 2 * mainY + (mainH - (sideSize * nL + padding * (nL - 1))) +
        2 * ((i : Int) * (sideSize + padding)) =
        (mainH - (sideSize * nL + padding * (nL - 1))) +
        2 * (mainY + (i : Int) * (sideSize + padding)) by ring,
      roundHalf_add_two_mul]
    ring
  dsimp only
  rw [key]
  have hD := roundHalf_spec (mainH - (sideSize * nL + padding * (nL - 1)))
  have hprod : 0 ≤ (i : Int) * (sideSize + padding) :=
    mul_nonneg hiI0 (by omega)
  have hprod2 : (i : Int) * (sideSize + padding) + sideSize ≤
      sideSize * nL + padding * (nL - 1) := by
    have : (i : Int) * (sideSize + padding) ≤ (nL - 1) * (sideSize + padding) :=
      mul_le_mul_of_nonneg_right hiI (by omega)
    nlinarith [this]
  constructor <;> omega

theorem v1RightCol_y_bounds {mainX mainY mainW mainH padding sideSize nR : Int} {r : Rect}
    (hp : 0 ≤ padding) (hs : 0 ≤ sideSize)
    (hfit : 0 < nR → sideSize * nR + padding * (nR - 1) ≤ mainH)
    (h : r ∈ v1RightCol mainX mainY mainW mainH padding sideSize nR) :
    mainY ≤ r.y ∧ r.y + sideSize ≤ mainY + mainH := by
  unfold v1RightCol at h
  rw [List.mem_map] at h
  obtain ⟨i, hi, rfl⟩ := h
  rw [List.mem_range] at hi
  have hnR : 0 < nR := by omega
  have hfit' := hfit hnR
  have hiI : (i : Int) ≤ nR - 1 := by omega
  have hiI0 : 0 ≤ (i : Int) := by positivity
  have key : roundHalf (2 * mainY + (mainH - (sideSize * nR + padding * (nR - 1))) +
      2 * ((i : Int) * (sideSize + padding))) =
      mainY + (i : Int) * (sideSize + padding) +
        roundHalf (mainH - (sideSize * nR + padding * (nR - 1))) := by
    rw [show 2 * mainY + (mainH - (sideSize * nR + padding * (nR - 1))) +
        2 * ((i : Int) * (sideSize + padding)) =
        (mainH - (sideSize * nR + padding * (nR - 1))) +
        2 * (mainY + (i : Int) * (sideSize + padding)) by ring,
      roundHalf_add_two_mul]
    ring
  dsimp only
  rw [key]
  have hD := roundHalf_spec (mainH - (sideSize * nR + padding * (nR - 1)))
  have hprod : 0 ≤ (i : Int) * (sideSize + padding) :=
    mul_nonneg hiI0 (by omega)
  have hprod2 : (i : Int) * (sideSize + padding) + sideSize ≤
      sideSize * nR + padding * (nR - 1) := by
    have : (i : Int) * (sideSize + padding) ≤ (nR - 1) * (sideSize + padding) :=
      mul_le_mul_of_nonneg_right hiI (by omega)
    nlinarith [this]
  constructor <;> omega

theorem roundHalf_spaced_le {C s p : Int} (hs : 0 ≤ s) (hp : 0 ≤ p) {i j : Nat} (hij : i < j) :
    roundHalf (C + 2 * ((i : Int) * (s + p))) + s ≤ roundHalf (C + 2 * ((j : Int) * (s + p))) := by
  rw [roundHalf_add_two_mul, roundHalf_add_two_mul]
  have h1 : (1 : Int) ≤ (j : Int) - (i : Int) := by omega
  nlinarith [mul_le_mul_of_nonneg_right h1 (show (0 : Int) ≤ s + p by omega)]

theorem v1TopRow_pairwise {mainX mainY mainW padding sideSize nTop : Int}
    (hp : 0 ≤ padding) (hs : 0 ≤ sideSize) :
    List.Pairwise (fun A B => ¬ overlaps A B)
      (v1TopRow mainX mainY mainW padding sideSize nTop) := by
  unfold v1TopRow
  rw [List.pairwise_map]
  refine (List.pairwise_lt_range _).imp ?_
  intro i j hij
  exact not_overlaps_of_x_le (Or.inl (roundHalf_spaced_le hs hp hij))

theorem v1BottomRow_pairwise {mainX mainY mainW mainH padding sideSize nBtm : Int}
    (hp : 0 ≤ padding) (hs : 0 ≤ sideSize) :
    List.Pairwise (fun A B => ¬ overlaps A B)
      (v1BottomRow mainX mainY mainW mainH padding sideSize nBtm) := by
  unfold v1BottomRow
  rw [List.pairwise_map]
  refine (List.pairwise_lt_range _).imp ?_
  intro i j hij
  exact not_overlaps_of_x_le (Or.inl (roundHalf_spaced_le hs hp hij))

theorem v1LeftCol_pairwise {mainX mainY mainH padding sideSize nL : Int}
    (hp : 0 ≤ padding) (hs : 0 ≤ sideSize) :
    List.Pairwise (fun A B => ¬ overlaps A B)
      (v1LeftCol mainX mainY mainH padding sideSize nL) := by
  unfold v1LeftCol
  rw [List.pairwise_map]
  refine (List.pairwise_lt_range _).imp ?_
  intro i j hij
  exact not_overlaps_of_y_le (Or.inl (roundHalf_spaced_le hs hp hij))

theorem v1RightCol_pairwise {mainX mainY mainW mainH padding sideSize nR : Int}
    (hp : 0 ≤ padding) (hs : 0 ≤ sideSize) :
    List.Pairwise (fun A B => ¬ overlaps A B)
      (v1RightCol mainX mainY mainW mainH padding sideSize nR) := by
  unfold v1RightCol
  rw [List.pairwise_map]
  refine (List.pairwise_lt_range _).imp ?_
  intro i j hij
  exact not_overlaps_of_y_le (Or.inl (roundHalf_spaced_le hs hp hij))

theorem v1_bands_pairwise
    (mainX mainY mainW mainH p s nT nB nL nR : Int)
    (hp : 0 ≤ p) (hs : 0 ≤ s) (hmw : 0 ≤ mainW) (hmh : -(2 * p) ≤ mainH)
    (hLfit : 0 < nL → s * nL + p * (nL - 1) ≤ mainH)
    (hRfit : 0 < nR → s * nR + p * (nR - 1) ≤ mainH) :
    List.Pairwise (fun A B => ¬ overlaps A B)
      (({ x := mainX, y := mainY, w := mainW, h := mainH } : Rect) ::
        (v1TopRow mainX mainY mainW p s nT
          ++ v1BottomRow mainX mainY mainW mainH p s nB
          ++ v1LeftCol mainX mainY mainH p s nL
          ++ v1RightCol mainX mainY mainW mainH p s nR)) := by
  rw [List.pairwise_cons]
  constructor
  · intro b hb
    rcases List.mem_append.1 hb with hb' | hR
    · rcases List.mem_append.1 hb' with hb'' | hL
      · rcases List.mem_append.1 hb'' with hT | hB
        · obtain ⟨hy, hh, -⟩ := v1TopRow_mem hT
          refine not_overlaps_of_y_le (Or.inr ?_)
          dsimp only
          omega
        · obtain ⟨hy, hh, -⟩ := v1BottomRow_mem hB
          refine not_overlaps_of_y_le (Or.inl ?_)
          dsimp only
          omega
      · obtain ⟨hx, hh, hw⟩ := v1LeftCol_mem hL
        refine not_overlaps_of_x_le (Or.inr ?_)
        dsimp only
        omega
    · obtain ⟨hx, hh, hw⟩ := v1RightCol_mem hR
      refine not_overlaps_of_x_le (Or.inl ?_)
      dsimp only
      omega
  · rw [List.pairwise_append]
    refine ⟨?_, ?_, ?_⟩
    · rw [List.pairwise_append]
      refine ⟨?_, ?_, ?_⟩
      · rw [List.pairwise_append]
        refine ⟨v1TopRow_pairwise hp hs, v1BottomRow_pairwise hp hs, ?_⟩
        · intro a ha b hb
          obtain ⟨hya, hha, -⟩ := v1TopRow_mem ha
          obtain ⟨hyb, hhb, -⟩ := v1BottomRow_mem hb
          refine not_overlaps_of_y_le (Or.inl ?_)
          omega
      · exact v1LeftCol_pairwise hp hs
      · intro a ha b hb
        obtain ⟨hyb, hysb⟩ := v1LeftCol_y_bounds hp hs hLfit hb
        obtain ⟨hhb, hwb⟩ := (v1LeftCol_mem hb).2
        rcases List.mem_append.1 ha with hT | hB
        · obtain ⟨hya, hha, -⟩ := v1TopRow_mem hT
          refine not_overlaps_of_y_le (Or.inl ?_)
          omega
        · obtain ⟨hya, hha, -⟩ := v1BottomRow_mem hB
          refine not_overlaps_of_y_le (Or.inr ?_)
          omega
    · exact v1RightCol_pairwise hp hs
    · intro a ha b hb
      obtain ⟨hyb, hysb⟩ := v1RightCol_y_bounds hp hs hRfit hb
      obtain ⟨hxb, hhb, hwb⟩ := v1RightCol_mem hb
      rcases List.mem_append.1 ha with ha' | hL
      · rcases List.mem_append.1 ha' with hT | hB
        · obtain ⟨hya, hha, -⟩ := v1TopRow_mem hT
          refine not_overlaps_of_y_le (Or.inl ?_)
          omega
        · obtain ⟨hya, hha, -⟩ := v1BottomRow_mem hB
          refine not_overlaps_of_y_le (Or.inr ?_)
          omega
      · obtain ⟨hxa, hha, hwa⟩ := v1LeftCol_mem hL
        refine not_overlaps_of_x_le (Or.inl ?_)
        omega

/-- C1 (amended): for a structurally valid request in which the page leaves
room for the main square (`2*gap <= pageHeight`) and every nonempty side
column fits its span (its computed per-edge size is at least 1), no two
rectangles among main and side overlap. -/
theorem gridV1_no_overlap_of_fit (W H p c mpi : Int)
    (hW : 0 < W) (hH : 0 < H) (hp : 0 ≤ p) (hpH : 2 * p ≤ H)
    (hL : 0 < (v1Distribute (c - 1)).2.2.1 →
      1 ≤ v1SizeFor (min (roundHalf W) (H - 4 * p)) (v1Distribute (c - 1)).2.2.1 p)
    (hR : 0 < (v1Distribute (c - 1)).2.2.2 →
      1 ≤ v1SizeFor (min (roundHalf W) (H - 4 * p)) (v1Distribute (c - 1)).2.2.2 p) :
    List.Pairwise (fun A B => ¬ overlaps A B)
      ((calculateGridLayoutV1 W H p c mpi).main :: (calculateGridLayoutV1 W H p c mpi).side) := by
  by_cases hc1 : c < 1
  · simp [calculateGridLayoutV1, if_pos hc1]
  · by_cases hc2 : c - 1 < 1
    · simp [calculateGridLayoutV1, if_neg hc1, if_pos hc2]
    · rw [calculateGridLayoutV1_spec W H p c mpi hc1 hc2]
      dsimp only
      refine v1_bands_pairwise _ _ _ _ _ _ _ _ _ _ hp ?_ ?_ ?_ ?_ ?_
      · have := le_max_left (1 : Int) (jsMinList
          ([v1SizeFor (roundHalf W) (v1Distribute (c - 1)).1 p,
            v1SizeFor (roundHalf W) (v1Distribute (c - 1)).2.1 p,
            v1SizeFor (min (roundHalf W) (H - 4 * p)) (v1Distribute (c - 1)).2.2.1 p,
            v1SizeFor (min (roundHalf W) (H - 4 * p)) (v1Distribute (c - 1)).2.2.2 p].filter
            (fun v => 0 < v)))
        omega
      · have := roundHalf_spec W
        omega
      · have := roundHalf_spec W
        omega
      · intro hnL
        have hsl := hL hnL
        have hmem : v1SizeFor (min (roundHalf W) (H - 4 * p)) (v1Distribute (c - 1)).2.2.1 p ∈
            [v1SizeFor (roundHalf W) (v1Distribute (c - 1)).1 p,
              v1SizeFor (roundHalf W) (v1Distribute (c - 1)).2.1 p,
              v1SizeFor (min (roundHalf W) (H - 4 * p)) (v1Distribute (c - 1)).2.2.1 p,
              v1SizeFor (min (roundHalf W) (H - 4 * p)) (v1Distribute (c - 1)).2.2.2 p].filter
              (fun v => 0 < v) := by
          refine List.mem_filter.2 ⟨by simp, ?_⟩
          simp only [decide_eq_true_eq]
          omega
        have hminle := jsMinList_le hmem
        have hsle : max 1 (jsMinList
            ([v1SizeFor (roundHalf W) (v1Distribute (c - 1)).1 p,
              v1SizeFor (roundHalf W) (v1Distribute (c - 1)).2.1 p,
              v1SizeFor (min (roundHalf W) (H - 4 * p)) (v1Distribute (c - 1)).2.2.1 p,
              v1SizeFor (min (roundHalf W) (H - 4 * p)) (v1Distribute (c - 1)).2.2.2 p].filter
              (fun v => 0 < v))) ≤
            v1SizeFor (min (roundHalf W) (H - 4 * p)) (v1Distribute (c - 1)).2.2.1 p :=
          max_le (by omega) hminle
        have hmul := v1SizeFor_mul_le hnL hsle
        nlinarith [hmul]
      · intro hnR
        have hsl := hR hnR
        have hmem : v1SizeFor (min (roundHalf W) (H - 4 * p)) (v1Distribute (c - 1)).2.2.2 p ∈
            [v1SizeFor (roundHalf W) (v1Distribute (c - 1)).1 p,
              v1SizeFor (roundHalf W) (v1Distribute (c - 1)).2.1 p,
              v1SizeFor (min (roundHalf W) (H - 4 * p)) (v1Distribute (c - 1)).2.2.1 p,
              v1SizeFor (min (roundHalf W) (H - 4 * p)) (v1Distribute (c - 1)).2.2.2 p].filter
              (fun v => 0 < v) := by
          refine List.mem_filter.2 ⟨by simp, ?_⟩
          simp only [decide_eq_true_eq]
          omega
        have hminle := jsMinList_le hmem
        have hsle : max 1 (jsMinList
            ([v1SizeFor (roundHalf W) (v1Distribute (c - 1)).1 p,
              v1SizeFor (roundHalf W) (v1Distribute (c - 1)).2.1 p,
              v1SizeFor (min (roundHalf W) (H - 4 * p)) (v1Distribute (c - 1)).2.2.1 p,
              v1SizeFor (min (roundHalf W) (H - 4 * p)) (v1Distribute (c - 1)).2.2.2 p].filter
              (fun v => 0 < v))) ≤
            v1SizeFor (min (roundHalf W) (H - 4 * p)) (v1Distribute (c - 1)).2.2.2 p :=
          max_le (by omega) hminle
        have hmul := v1SizeFor_mul_le hnR hsle
        nlinarith [hmul]

theorem v1Distribute_cases (ns : Int) :
    (ns % 4 = 0 → v1Distribute ns = (ns / 4, ns / 4, ns / 4, ns / 4)) ∧
    (ns % 4 = 1 → v1Distribute ns = (ns / 4 + 1, ns / 4, ns / 4, ns / 4)) ∧
    (ns % 4 = 2 → v1Distribute ns = (ns / 4 + 1, ns / 4 + 1, ns / 4, ns / 4)) ∧
    (ns % 4 = 3 → v1Distribute ns = (ns / 4 + 1, ns / 4 + 1, ns / 4 + 1, ns / 4)) := by
  have hfd : ns.fdiv 4 = ns / 4 := Int.fdiv_eq_ediv _ (by norm_num)
  simp only [v1Distribute, hfd]
  refine ⟨fun h => ?_, fun h => ?_, fun h => ?_, fun h => ?_⟩
  · rw [show (ns - ns / 4 * 4).toNat = 0 by omega]
    rfl
  · rw [show (ns - ns / 4 * 4).toNat = 1 by omega]
    rfl
  · rw [show (ns - ns / 4 * 4).toNat = 2 by omega]
    rfl
  · rw [show (ns - ns / 4 * 4).toNat = 3 by omega]
    rfl

theorem roundRobin4_succ (n : Nat) :
    roundRobin4 (n + 1) = bumpAt (n % 4) (roundRobin4 n) := by
  unfold roundRobin4
  rw [List.range_succ, List.foldl_append]
  rfl

theorem roundRobin4_eq (n : Nat) :
    roundRobin4 n =
      ((((n + 3) / 4 : Nat) : Int), (((n + 2) / 4 : Nat) : Int),
        (((n + 1) / 4 : Nat) : Int), (((n / 4 : Nat)) : Int)) := by
  induction n with
  | zero => rfl
  | succ n ih =>
    rw [roundRobin4_succ, ih]
    have h4 : n % 4 = 0 ∨ n % 4 = 1 ∨ n % 4 = 2 ∨ n % 4 = 3 := by omega
    rcases h4 with h | h | h | h <;> rw [h] <;>
      simp only [bumpAt, Prod.mk.injEq] <;>
      refine ⟨?_, ?_, ?_, ?_⟩ <;> try omega

theorem v2Place_side_length (W H p nT nB nL nR s m : Int) :
    (v2Place W H p nT nB nL nR s m).side.length =
      nT.toNat + nB.toNat + nL.toNat + nR.toNat := by
  simp only [v2Place, List.length_append, List.length_map, List.length_range]
  try omega

theorem v2Search_result (W H p nT nB nL nR mm : Int) (fuel : Nat) :
    ∀ st : GridLayoutResult × Int,
      (v2Search W H p nT nB nL nR mm fuel st).1 = st.1 ∨
      ∃ s m : Int, (v2Search W H p nT nB nL nR mm fuel st).1 = v2Place W H p nT nB nL nR s m := by
  induction fuel with
  | zero => intro st; left; rfl
  | succ k ih =>
    intro st
    simp only [v2Search]
    split_ifs with h1 h2 h3 h4
    all_goals first
      | exact ih _
      | (left; rfl)
      | (right; exact ⟨_, _, rfl⟩)
      | (rcases ih _ with hres | ⟨s', m', hres⟩
         · exact Or.inr ⟨_, _, hres⟩
         · exact Or.inr ⟨s', m', hres⟩)

/-- C1 witness: the non-overlap theorem applied to the concrete A4 request
(794 x 1123, gap 5, 9 photos), whose hypotheses all hold. -/
theorem gridV1_no_overlap_of_fit_witness :
    (0 : Int) < 794 ∧
    List.Pairwise (fun A B => ¬ overlaps A B)
      ((calculateGridLayoutV1 794 1123 5 9 0).main ::
        (calculateGridLayoutV1 794 1123 5 9 0).side) :=
  ⟨by decide,
    gridV1_no_overlap_of_fit 794 1123 5 9 0 (by decide) (by decide) (by decide) (by decide)
      (by decide) (by decide)⟩

/-- C1 counterexample: on the structurally valid request (10 x 10, gap 0,
41 photos) the first variant returns the same 1 x 1 rectangle at positions 1
and 21 of the side list, so two side photos overlap with positive area. -/
theorem gridV1_overlap_counterexample :
    (calculateGridLayoutV1 10 10 0 41 0).side.get? 1 =
      some { x := 2, y := 2, w := 1, h := 1 } ∧
    (calculateGridLayoutV1 10 10 0 41 0).side.get? 21 =
      some { x := 2, y := 2, w := 1, h := 1 } ∧
    overlaps { x := 2, y := 2, w := 1, h := 1 } { x := 2, y := 2, w := 1, h := 1 } := by
  refine ⟨by decide, by decide, by decide⟩

/-- C2 (amended): for every request with `totalPhotoCount >= 2`, the search
variant returns either exactly `totalPhotoCount - 1` side rectangles (when a
candidate configuration is accepted) or the zero layout with an empty side
list (when no candidate reaches the minimum main size). -/
theorem gridV2_side_count_or_zero (W H p c mpi : Int) (hc : 2 ≤ c) :
    (calculateGridLayoutV2 W H p c mpi).side.length = (c - 1).toNat ∨
    calculateGridLayoutV2 W H p c mpi = { main := ⟨0, 0, 0, 0⟩, side := [] } := by
  have h1 : ¬ c < 1 := by omega
  have h2 : ¬ c = 1 := by omega
  simp only [calculateGridLayoutV2, if_neg h1, if_neg h2]
  obtain hres | ⟨s, m, hres⟩ :=
    v2Search_result W H p _ _ _ _ _ _ ({ main := ⟨0, 0, 0, 0⟩, side := [] }, 0)
  · rw [hres]
    right
    rfl
  · rw [hres, v2Place_side_length]
    left
    simp only [roundRobin4_eq, Int.toNat_natCast]
    omega

/-- C2 witness: at the A4 request with 9 photos the search succeeds and the
side list has exactly 8 rectangles. -/
theorem gridV2_side_count_or_zero_witness :
    (calculateGridLayoutV2 794 1123 5 9 0).side.length = ((9 : Int) - 1).toNat ∨
    calculateGridLayoutV2 794 1123 5 9 0 = { main := ⟨0, 0, 0, 0⟩, side := [] } :=
  gridV2_side_count_or_zero 794 1123 5 9 0 (by decide)

set_option maxRecDepth 4000 in
/-- C2 counterexample: 200 photos on a 10 x 10 page with gap 0 is a valid
request by the spec's invariant, yet the side list is empty, not 199 long. -/
theorem gridV2_side_count_counterexample :
    ¬ ((calculateGridLayoutV2 10 10 0 200 0).side.length = 200 - 1) := by
  decide

/-- C3: on the application's own A4 canvas (794 x 1123, gap 5) with 2 photos,
the first variant places the single top side photo at y = -39, above the page:
the bounds invariant `y >= 0` fails on a structurally valid request. -/
theorem gridV1_out_of_bounds_on_A4 :
    (calculateGridLayoutV1 794 1123 5 2 0).side =
      [{ x := 199, y := -39, w := 397, h := 397 }] ∧
    ((-39 : Int) < 0) := by
  refine ⟨by decide, by decide⟩

/-- C5: at Scenario A (794 x 1123, gap 5, 9 photos) the search variant
reserves `nTop * s` vertical space for a single top row, so the spacing
between the top row and the main photo is 101 px, not the requested 5 px. -/
theorem gridV2_scenarioA_gap_is_101 :
    (calculateGridLayoutV2 794 1123 5 9 0).main = { x := 197, y := 362, w := 400, h := 400 } ∧
    (calculateGridLayoutV2 794 1123 5 9 0).side.head? =
      some { x := 304, y := 170, w := 91, h := 91 } ∧
    (362 : Int) - (170 + 91) = 101 ∧ ((101 : Int) ≠ 5) := by
  refine ⟨by decide, by decide, by decide, by decide⟩

/-- C6 (amended): no input validation occurs; a request with
`totalPhotoCount < 1` yields the zero layout value instead of an
InvalidRequest error, in both variants. -/
theorem gridLayout_no_validation (W H p c mpi : Int) (hc : c < 1) :
    calculateGridLayoutV1 W H p c mpi = { main := ⟨0, 0, 0, 0⟩, side := [] } ∧
    calculateGridLayoutV2 W H p c mpi = { main := ⟨0, 0, 0, 0⟩, side := [] } := by
  constructor
  · simp [calculateGridLayoutV1, if_pos hc]
  · simp [calculateGridLayoutV2, if_pos hc]

/-- C6 witness: the no-validation theorem applied at count 0. -/
theorem gridLayout_no_validation_witness :
    calculateGridLayoutV1 794 1123 5 0 0 = { main := ⟨0, 0, 0, 0⟩, side := [] } ∧
    calculateGridLayoutV2 794 1123 5 0 0 = { main := ⟨0, 0, 0, 0⟩, side := [] } :=
  gridLayout_no_validation 794 1123 5 0 0 (by decide)

/-- C6 counterexample: `mainPhotoIndex = totalPhotoCount` (out of range) is
not rejected: both variants return a complete ordinary layout for it. -/
theorem gridLayout_accepts_out_of_range_index :
    calculateGridLayoutV2 794 1123 5 1 1 =
      { main := ⟨5, 170, 784, 784⟩, side := [] } ∧
    calculateGridLayoutV1 794 1123 5 1 1 =
      { main := ⟨199, 363, 397, 397⟩, side := [] } := by
  refine ⟨by decide, by decide⟩

/-- C10: the `mainPhotoIndex` argument has no influence on the result of
either `calculateGridLayout` variant: two calls differing only in that
argument return identical layouts. -/
theorem mainPhotoIndex_noninterference (W H p c i j : Int) :
    calculateGridLayoutV1 W H p c i = calculateGridLayoutV1 W H p c j ∧
    calculateGridLayoutV2 W H p c i = calculateGridLayoutV2 W H p c j :=
  ⟨rfl, rfl⟩

theorem v1_bands_w_h {mainX mainY mainW mainH p s nT nB nL nR : Int} {r : Rect}
    (hr : r ∈ v1TopRow mainX mainY mainW p s nT
      ++ v1BottomRow mainX mainY mainW mainH p s nB
      ++ v1LeftCol mainX mainY mainH p s nL
      ++ v1RightCol mainX mainY mainW mainH p s nR) :
    r.w = s ∧ r.h = s := by
  rcases List.mem_append.1 hr with hr' | hR
  · rcases List.mem_append.1 hr' with hr'' | hL
    · rcases List.mem_append.1 hr'' with hT | hB
      · obtain ⟨-, hh, hw⟩ := v1TopRow_mem hT
        exact ⟨hw, hh⟩
      · obtain ⟨-, hh, hw⟩ := v1BottomRow_mem hB
        exact ⟨hw, hh⟩
    · obtain ⟨-, hh, hw⟩ := v1LeftCol_mem hL
      exact ⟨hw, hh⟩
  · obtain ⟨-, hh, hw⟩ := v1RightCol_mem hR
    exact ⟨hw, hh⟩

/-- C7 (amended): the first variant never fails on an over-constrained valid
request: for any count at least 2 it returns exactly `count - 1` side
rectangles, all uniform squares with the clamped floor of at least 1 px.
There is no degraded flag or warnings field on the result. -/
theorem gridV1_overconstrained_totality (W H p c mpi : Int) (hc : 2 ≤ c) :
    (calculateGridLayoutV1 W H p c mpi).side.length = (c - 1).toNat ∧
    (∀ r ∈ (calculateGridLayoutV1 W H p c mpi).side, r.w = r.h ∧ 1 ≤ r.w) ∧
    (∀ r1 ∈ (calculateGridLayoutV1 W H p c mpi).side,
      ∀ r2 ∈ (calculateGridLayoutV1 W H p c mpi).side, r1.w = r2.w) := by
  rw [calculateGridLayoutV1_spec W H p c mpi (by omega) (by omega)]
  dsimp only
  refine ⟨?_, ?_, ?_⟩
  · simp only [List.length_append, v1TopRow, v1BottomRow, v1LeftCol, v1RightCol,
      List.length_map, List.length_range]
    obtain ⟨hzero, hone, htwo, hthree⟩ := v1Distribute_cases (c - 1)
    have h4 : (c - 1) % 4 = 0 ∨ (c - 1) % 4 = 1 ∨ (c - 1) % 4 = 2 ∨ (c - 1) % 4 = 3 := by
      omega
    rcases h4 with h | h | h | h
    · rw [hzero h]; dsimp only; omega
    · rw [hone h]; dsimp only; omega
    · rw [htwo h]; dsimp only; omega
    · rw [hthree h]; dsimp only; omega
  · intro r hr
    obtain ⟨hw, hh⟩ := v1_bands_w_h hr
    refine ⟨by rw [hw, hh], ?_⟩
    rw [hw]
    exact le_max_left 1 _
  · intro r1 h1 r2 h2
    obtain ⟨hw1, -⟩ := v1_bands_w_h h1
    obtain ⟨hw2, -⟩ := v1_bands_w_h h2
    rw [hw1, hw2]

/-- C7 witness: the totality theorem applied to 200 photos on a 10 x 10 page. -/
theorem gridV1_overconstrained_totality_witness :
    (2 : Int) ≤ 200 ∧ (calculateGridLayoutV1 10 10 0 200 0).side.length = ((200 : Int) - 1).toNat :=
  ⟨by decide, (gridV1_overconstrained_totality 10 10 0 200 0 (by decide)).1⟩

set_option maxRecDepth 8000 in
/-- C7 counterexample: on an over-constrained valid request (10 x 10, gap 0,
200 photos) the clamped result repeats the same 1 x 1 rectangle at side
positions 21 and 121, so the non-overlap invariant does not survive
degradation. -/
theorem gridV1_overconstrained_overlap :
    (calculateGridLayoutV1 10 10 0 200 0).side.get? 21 =
      some { x := 2, y := 2, w := 1, h := 1 } ∧
    (calculateGridLayoutV1 10 10 0 200 0).side.get? 121 =
      some { x := 2, y := 2, w := 1, h := 1 } ∧
    overlaps { x := 2, y := 2, w := 1, h := 1 } { x := 2, y := 2, w := 1, h := 1 } := by
  refine ⟨by decide, by decide, by decide⟩

/-- C8 (amended): for one photo the search variant returns an empty side list
and a main square of size `min(pageWidth, pageHeight) - 2*gap`, centered up
to rounding; all four margins are at least `gap`, and the margins along the
smaller page dimension are exactly `gap`. -/
theorem gridV2_single_image_margins (W H p mpi : Int) (hW : 0 < W) (hH : 0 < H)
    (hp : 0 ≤ p) (hfit : 2 * p ≤ min W H) :
    (calculateGridLayoutV2 W H p 1 mpi).side = [] ∧
    (calculateGridLayoutV2 W H p 1 mpi).main.w = min W H - 2 * p ∧
    (calculateGridLayoutV2 W H p 1 mpi).main.h = min W H - 2 * p ∧
    p ≤ (calculateGridLayoutV2 W H p 1 mpi).main.x ∧
    p ≤ (calculateGridLayoutV2 W H p 1 mpi).main.y ∧
    (calculateGridLayoutV2 W H p 1 mpi).main.x +
      (calculateGridLayoutV2 W H p 1 mpi).main.w ≤ W - p ∧
    (calculateGridLayoutV2 W H p 1 mpi).main.y +
      (calculateGridLayoutV2 W H p 1 mpi).main.h ≤ H - p ∧
    (W ≤ H → (calculateGridLayoutV2 W H p 1 mpi).main.x = p) ∧
    (H ≤ W → (calculateGridLayoutV2 W H p 1 mpi).main.y = p) ∧
    W - (min W H - 2 * p) ≤ 2 * (calculateGridLayoutV2 W H p 1 mpi).main.x ∧
    2 * (calculateGridLayoutV2 W H p 1 mpi).main.x ≤ W - (min W H - 2 * p) + 1 ∧
    H - (min W H - 2 * p) ≤ 2 * (calculateGridLayoutV2 W H p 1 mpi).main.y ∧
    2 * (calculateGridLayoutV2 W H p 1 mpi).main.y ≤ H - (min W H - 2 * p) + 1 := by
  have h1 : ¬ (1 : Int) < 1 := by omega
  simp only [calculateGridLayoutV2, if_neg h1, if_pos rfl, ite_true]
  have hx := roundHalf_spec (W - min (W - 2 * p) (H - 2 * p))
  have hy := roundHalf_spec (H - min (W - 2 * p) (H - 2 * p))
  refine ⟨trivial, by omega, by omega, by omega, by omega, by omega, by omega,
    fun hWH => by omega, fun hHW => by omega, by omega, by omega, by omega, by omega⟩

/-- C8 witness: the single-photo theorem applied to the A4 page with gap 5. -/
theorem gridV2_single_image_margins_witness :
    (0 : Int) < 794 ∧ (calculateGridLayoutV2 794 1123 5 1 0).main.w = min 794 1123 - 2 * 5 :=
  ⟨by decide, (gridV2_single_image_margins 794 1123 5 0 (by decide) (by decide) (by decide)
    (by decide)).2.1⟩

/-- C8 counterexample: on the A4 page (794 x 1123, gap 5) the single-photo
main square has top margin 170, not the gap 5, so the margin is not exactly
`gap` on all four sides. -/
theorem gridV2_single_image_margin_not_gap :
    (calculateGridLayoutV2 794 1123 5 1 0).main.y = 170 ∧ ((170 : Int) ≠ 5) := by
  refine ⟨by decide, by decide⟩

theorem ringSideSteps_length (dq dr : Int) (k : Nat) (q r : Int) :
    (ringSideSteps dq dr k q r).1.length = k := by
  induction k generalizing q r with
  | zero => rfl
  | succ k ih => simp [ringSideSteps, ih]

/-- C4: both implementations of the side-distribution policy agree and follow
the base-plus-remainder rule: `floor(n/4)` per edge plus one extra each in the
order top, bottom, left, right; the counts sum to `n`; for `n % 4 = 0` every
edge gets exactly `n / 4`; and `n = 9` gives top 3, bottom 2, left 2,
right 2. -/
theorem sidePhotoDistribution_policy (n : Nat) :
    tryDistributeSidePhotos n =
      ((calculateSidePhotoDistribution n).top, (calculateSidePhotoDistribution n).bottom,
        (calculateSidePhotoDistribution n).left, (calculateSidePhotoDistribution n).right) ∧
    (calculateSidePhotoDistribution n).top + (calculateSidePhotoDistribution n).bottom +
      (calculateSidePhotoDistribution n).left + (calculateSidePhotoDistribution n).right = n ∧
    (n % 4 = 0 →
      (calculateSidePhotoDistribution n).top = n / 4 ∧
      (calculateSidePhotoDistribution n).bottom = n / 4 ∧
      (calculateSidePhotoDistribution n).left = n / 4 ∧
      (calculateSidePhotoDistribution n).right = n / 4) ∧
    calculateSidePhotoDistribution 9 = ⟨3, 2, 2, 2⟩ := by
  have h4 : n % 4 = 0 ∨ n % 4 = 1 ∨ n % 4 = 2 ∨ n % 4 = 3 := by omega
  refine ⟨?_, ?_, ?_, by decide⟩
  · unfold tryDistributeSidePhotos calculateSidePhotoDistribution
    dsimp only
    rw [show n - (n / 4 + n / 4 + n / 4 + n / 4) = n % 4 by omega]
    rcases h4 with h | h | h | h <;> rw [h] <;>
      simp [distWhile, distBody] <;> omega
  · rcases h4 with h | h | h | h <;>
      simp [calculateSidePhotoDistribution, h] <;> omega
  · intro h
    simp [calculateSidePhotoDistribution, h]

/-- C4 witness: the distribution policy theorem applied at the multiple-of-four
count 8, where every edge receives exactly 2. -/
theorem sidePhotoDistribution_policy_witness :
    (8 : Nat) % 4 = 0 ∧ (calculateSidePhotoDistribution 8).top = 8 / 4 :=
  ⟨by decide, ((sidePhotoDistribution_policy 8).2.2.1 (by decide)).1⟩

/-- C9: ring `k` of the hexagon layout holds exactly `6 * k` positions, and
`calculateHexagonRings` picks the smallest ring count in 1..4 whose cumulative
capacity `3 * k * (k + 1)` (that is 6, 18, 36, 60) covers the side count,
capping at 4 rings for more than 60 side photos. -/
theorem hexagonRings_spec :
    (∀ ring : Nat, 1 ≤ ring → (generateRingPositions ring).length = 6 * ring) ∧
    (∀ n : Nat,
      1 ≤ (calculateHexagonRings n).rings ∧
      (calculateHexagonRings n).rings ≤ 4 ∧
      (calculateHexagonRings n).totalHexes =
        3 * (calculateHexagonRings n).rings * ((calculateHexagonRings n).rings + 1) ∧
      (n ≤ 60 → n ≤ (calculateHexagonRings n).totalHexes) ∧
      (60 < n → (calculateHexagonRings n).rings = 4) ∧
      (∀ k : Nat, 1 ≤ k → k < (calculateHexagonRings n).rings → 3 * k * (k + 1) < n)) := by
  constructor
  · intro ring hr
    by_cases h1 : ring = 1
    · subst h1
      decide
    · unfold generateRingPositions
      rw [if_neg h1]
      simp only [List.foldl_cons, List.foldl_nil]
      simp only [List.length_append, ringSideSteps_length, List.length_nil]
      omega
  · intro n
    unfold calculateHexagonRings
    split_ifs with h1 h2 h3 <;> dsimp only <;>
      refine ⟨by norm_num, by norm_num, by norm_num, fun hn => by omega, fun hn => by omega,
        ?_⟩ <;>
      intro k hk1 hk2 <;>
      interval_cases k <;> omega

/-- C9 witness: ring 2 has 12 positions, by the ring-length theorem. -/
theorem hexagonRings_spec_witness :
    (1 : Nat) ≤ 2 ∧ (generateRingPositions 2).length = 6 * 2 :=
  ⟨by decide, hexagonRings_spec.1 2 (by decide)⟩
